import Mathlib

/-!
Verification development for the CaseCrawl frontend (TypeScript sources under
`src/frontend/src`).  The data model is embedded from `types/index.ts`, the page
logic from `pages/Disambiguation.tsx`, `pages/ManualEntry.tsx`, the
`CaseEntryForm` component and the `Dashboard` page, the HTTP client from
`utils/api.ts`, and the WebSocket hook from `hooks/useWebSocket.ts`.
JavaScript truthiness (of `undefined` and of strings) is modelled explicitly
where the code relies on it.
-/

namespace CaseCrawl

/-- `BatchStatus` from `types/index.ts`. -/
inductive BatchStatus where
  | pending
  | processing
  | completed
  | failed
  | paused
  deriving DecidableEq, BEq

/-- `CaseStatus` from `types/index.ts`: the ten case statuses. -/
inductive CaseStatus where
  | pending
  | searching
  | ambiguous
  | awaiting_selection
  | civil_procedure_blocked
  | citation_mismatch
  | analysis_only
  | downloading
  | completed
  | error
  deriving DecidableEq, BEq

/-- `CitationMatchType` from `types/index.ts`:
`'exact' | 'similar_volume' | 'year_match_only' | 'none'`. -/
inductive CitationMatchType where
  | exact
  | similar_volume
  | year_match_only
  | none
  deriving DecidableEq, BEq

/-- The `available_documents` object of `SearchResultItem`. -/
structure AvailableDocuments where
  pdf : Bool
  transcript : Bool
  analysis : Bool
  deriving DecidableEq, BEq

/-- `SearchResultItem` from `types/index.ts`.  Optional TS fields are `Option`s;
`number` fields that hold scores are rationals. -/
structure SearchResultItem where
  id : String
  westlaw_citation : String
  where_reported : List String
  principal_subject : Option String
  is_civil_procedure : Bool
  parties_display : String
  decision_date : Option String
  year : Nat
  available_documents : AvailableDocuments
  citation_match_type : CitationMatchType
  similarity_score : Rat
  westlaw_url : Option String
  citation_match_badge : Option String
  deriving DecidableEq

/-- `BatchStatistics` from `types/index.ts`. -/
structure BatchStatistics where
  batch_id : String
  status : BatchStatus
  total_cases : Nat
  completed : Nat
  pending : Nat
  errors : Nat
  ambiguous : Nat
  civil_procedure_blocked : Nat
  awaiting_selection : Nat
  progress_percentage : Rat
  deriving DecidableEq

/-- JavaScript truthiness of a possibly-`undefined` boolean value. -/
def jsTruthy : Option Bool → Bool
  | Option.none => false
  | Option.some b => b

/-- JavaScript truthiness of a possibly-`undefined` string (`undefined` and the
empty string are falsy). -/
def jsTruthyString : Option String → Bool
  | Option.none => false
  | Option.some s => !(s == "")

/-- The property access `result.has_downloadable_document` performed by
`ResultCard` in `pages/Disambiguation.tsx`.  The interface `SearchResultItem`
in `types/index.ts` declares no such field, so on a response object of that
shape the access yields `undefined`, modelled as `Option.none`. -/
def SearchResultItem.has_downloadable_document (_ : SearchResultItem) : Option Bool :=
  Option.none

/-- `const canDownload = result.has_downloadable_document && !result.is_civil_procedure`
from `ResultCard` in `pages/Disambiguation.tsx`, as the truth value of the
resulting expression. -/
def canDownload (result : SearchResultItem) : Bool :=
  jsTruthy result.has_downloadable_document && !result.is_civil_procedure

/-- The `ResultCard` render guard `{!canDownload && (… Cannot auto-download …)}`:
whether the "Cannot auto-download" indicator is shown for a result. -/
def cannotAutoDownloadShown (result : SearchResultItem) : Bool :=
  !(canDownload result)

/-- The `{ label, color }` value type of `matchTypeConfig` in
`pages/Disambiguation.tsx`. -/
structure MatchTypeBadge where
  label : String
  color : String
  deriving DecidableEq, BEq

/-- `matchTypeConfig` from `pages/Disambiguation.tsx`, as the association list
of its four record entries in source order. -/
def matchTypeConfig : List (CitationMatchType × MatchTypeBadge) :=
  [ (CitationMatchType.exact,
      { label := "Exact Match",
        color := "bg-green-100 text-green-800 border-green-200" }),
    (CitationMatchType.similar_volume,
      { label := "Volume Tolerance",
        color := "bg-yellow-100 text-yellow-800 border-yellow-200" }),
    (CitationMatchType.year_match_only,
      { label := "Year Match Only",
        color := "bg-orange-100 text-orange-800 border-orange-200" }),
    (CitationMatchType.none,
      { label := "No Match",
        color := "bg-red-100 text-red-800 border-red-200" }) ]

/-- Body of the POST issued by `selectCaseResult` in `utils/api.ts`:
`{ result_id: resultId, override_civil_procedure: false }`. -/
structure SelectRequestBody where
  result_id : String
  override_civil_procedure : Bool
  deriving DecidableEq, BEq

/-- The request a selection produces. -/
structure SelectRequest where
  url : String
  body : SelectRequestBody
  deriving DecidableEq, BEq

/-- `selectCaseResult(caseId, resultId)` from `utils/api.ts`: it POSTs to
`/cases/{caseId}/select` with `override_civil_procedure` hardcoded to `false`. -/
def selectCaseResultRequest (caseId resultId : String) : SelectRequest :=
  { url := "/api/v1/cases/" ++ caseId ++ "/select",
    body := { result_id := resultId, override_civil_procedure := false } }

/-- A concrete search result used to instantiate the theorems below: a
civil-procedure-flagged exact match with a PDF available. -/
def sampleResult : SearchResultItem :=
  { id := "r1",
    westlaw_citation := "[2020] HKCFI 123",
    where_reported := ["[2020] 1 HKLRD 100"],
    principal_subject := Option.none,
    is_civil_procedure := true,
    parties_display := "Smith v Jones",
    decision_date := Option.none,
    year := 2020,
    available_documents := { pdf := true, transcript := false, analysis := false },
    citation_match_type := CitationMatchType.exact,
    similarity_score := 1,
    westlaw_url := Option.none,
    citation_match_badge := Option.none }

/-- Claim C1 counterexample: the selection request built by the client carries
`override_civil_procedure = false` at the concrete input, and no choice of case
and candidate makes the client send `override_civil_procedure = true`. -/
theorem select_override_counterexample :
    (selectCaseResultRequest "case-1" "result-1").body.override_civil_procedure = false ∧
    ¬ ∃ caseId resultId,
        (selectCaseResultRequest caseId resultId).body.override_civil_procedure = true := by
  refine ⟨rfl, ?_⟩
  rintro ⟨c, r, h⟩
  simp [selectCaseResultRequest] at h

/-- Claim C1 (amended): for every case and chosen candidate, the selection
request sent by the client includes an `override_civil_procedure` value, but it
is hardcoded to `false`; the body's `result_id` is the chosen candidate id. -/
theorem select_request_fixed_override (caseId resultId : String) :
    (selectCaseResultRequest caseId resultId).body.result_id = resultId ∧
    (selectCaseResultRequest caseId resultId).body.override_civil_procedure = false :=
  ⟨rfl, rfl⟩

/-- Claim C2: for every candidate result whose `is_civil_procedure` flag is
true — hence for every `citation_match_type` it may carry and every value of
the batch policy `auto_download_exact_matches`, neither of which `canDownload`
reads — the disambiguation view computes `canDownload = false` and shows the
"Cannot auto-download" indicator. -/
theorem civil_procedure_blocks_auto_download (result : SearchResultItem)
    (auto_download_exact_matches : Bool) (h : result.is_civil_procedure = true) :
    canDownload result = false ∧ cannotAutoDownloadShown result = true := by
  constructor
  · simp [canDownload, h]
  · simp [cannotAutoDownloadShown, canDownload, h]

/-- Witness for C2 at the concrete civil-procedure-flagged result. -/
theorem civil_procedure_blocks_auto_download_witness :
    canDownload sampleResult = false ∧ cannotAutoDownloadShown sampleResult = true :=
  civil_procedure_blocks_auto_download sampleResult true rfl

/-- Claim C3: for every search result rendered by the disambiguation page,
`canDownload` is false and the "Cannot auto-download" indicator is shown,
because the field `has_downloadable_document` it reads is absent from
`SearchResultItem`. -/
theorem cannot_auto_download_always_shown (result : SearchResultItem) :
    canDownload result = false ∧ cannotAutoDownloadShown result = true := by
  constructor
  · simp [canDownload, jsTruthy, SearchResultItem.has_downloadable_document]
  · simp [cannotAutoDownloadShown, canDownload, jsTruthy,
      SearchResultItem.has_downloadable_document]

/-- Claim C6: the match-type vocabulary is exactly the closed four-element set,
and `matchTypeConfig` is total over it, holding exactly one badge
configuration per match type. -/
theorem match_type_vocabulary_closed_and_total (mt : CitationMatchType) :
    mt ∈ [CitationMatchType.exact, CitationMatchType.similar_volume,
          CitationMatchType.year_match_only, CitationMatchType.none] ∧
    matchTypeConfig.countP (fun p => p.1 == mt) = 1 := by
  cases mt <;> exact ⟨by simp, by decide⟩

/-- Number of cases of a batch currently in status `s`. -/
def statusCount (s : CaseStatus) (cases : List CaseStatus) : Nat :=
  cases.countP (fun t => decide (t = s))

/-- Modelled from the spec: the backend that computes `BatchStatistics` is not
among the frontend sources; per §4.7 the BatchCoordinator "updates BatchJob
aggregate counts on every CaseLifecycle transition" and BatchJob carries
"aggregate counts per status", so each bucket of `BatchStatistics` counts the
constituent cases currently in the same-named `CaseStatus`, and `total_cases`
is the number of constituent cases. -/
def batchStatisticsOf (batch_id : String) (status : BatchStatus)
    (progress_percentage : Rat) (cases : List CaseStatus) : BatchStatistics :=
  { batch_id := batch_id,
    status := status,
    total_cases := cases.length,
    completed := statusCount CaseStatus.completed cases,
    pending := statusCount CaseStatus.pending cases,
    errors := statusCount CaseStatus.error cases,
    ambiguous := statusCount CaseStatus.ambiguous cases,
    civil_procedure_blocked := statusCount CaseStatus.civil_procedure_blocked cases,
    awaiting_selection := statusCount CaseStatus.awaiting_selection cases,
    progress_percentage := progress_percentage }

/-- Sum of the six per-status buckets that `BatchStatistics` carries and the
dashboard's `StatCard` grid displays (completed, pending, errors, ambiguous,
civil_procedure_blocked, awaiting_selection). -/
def sixBucketSum (st : BatchStatistics) : Nat :=
  st.completed + st.pending + st.errors + st.ambiguous +
    st.civil_procedure_blocked + st.awaiting_selection

/-- Modelled from the spec: the CaseLifecycle transition relation of §4.4
(including `select` with override out of `civil_procedure_blocked`, and the
"force manual review" move from any non-terminal state to `error`). -/
def caseStep : CaseStatus → CaseStatus → Bool
  | CaseStatus.pending, CaseStatus.searching => true
  | CaseStatus.searching, CaseStatus.downloading => true
  | CaseStatus.searching, CaseStatus.civil_procedure_blocked => true
  | CaseStatus.searching, CaseStatus.ambiguous => true
  | CaseStatus.searching, CaseStatus.awaiting_selection => true
  | CaseStatus.searching, CaseStatus.citation_mismatch => true
  | CaseStatus.searching, CaseStatus.analysis_only => true
  | CaseStatus.ambiguous, CaseStatus.downloading => true
  | CaseStatus.awaiting_selection, CaseStatus.downloading => true
  | CaseStatus.civil_procedure_blocked, CaseStatus.downloading => true
  | CaseStatus.downloading, CaseStatus.completed => true
  | CaseStatus.completed, _ => false
  | CaseStatus.error, _ => false
  | _, CaseStatus.error => true
  | _, _ => false

/-- A case status reachable from the initial status `pending` under the
CaseLifecycle transitions. -/
inductive ReachableStatus : CaseStatus → Prop where
  | init : ReachableStatus CaseStatus.pending
  | step {s t : CaseStatus} : ReachableStatus s → caseStep s t = true → ReachableStatus t

/-- The ten same-named status counts partition the case list. -/
theorem statusCount_partition (cases : List CaseStatus) :
    statusCount CaseStatus.completed cases + statusCount CaseStatus.pending cases +
      statusCount CaseStatus.error cases + statusCount CaseStatus.ambiguous cases +
      statusCount CaseStatus.civil_procedure_blocked cases +
      statusCount CaseStatus.awaiting_selection cases +
      statusCount CaseStatus.searching cases +
      statusCount CaseStatus.citation_mismatch cases +
      statusCount CaseStatus.analysis_only cases +
      statusCount CaseStatus.downloading cases = cases.length := by
  induction cases with
  | nil => rfl
  | cons s t ih =>
      simp only [statusCount, List.countP_cons, List.length_cons] at ih ⊢
      cases s <;> simp only [decide_True, decide_False, reduceCtorEq, if_true, if_false,
        decide_eq_true_eq] <;> omega

/-- Claim C4 counterexample: the batch whose single case is in the reachable
status `searching` has a six-bucket sum (0) different from `total_cases` (1) —
the six buckets of `BatchStatistics` are not exhaustive over the ten case
statuses. -/
theorem bucket_sum_counterexample :
    (∀ s ∈ [CaseStatus.searching], ReachableStatus s) ∧
    sixBucketSum (batchStatisticsOf "b1" BatchStatus.processing 0 [CaseStatus.searching]) ≠
      (batchStatisticsOf "b1" BatchStatus.processing 0 [CaseStatus.searching]).total_cases := by
  constructor
  · intro s hs
    simp only [List.mem_singleton] at hs
    subst hs
    exact ReachableStatus.step ReachableStatus.init (by decide)
  · decide

/-- Claim C4 (amended): for every batch state, the six buckets carried by
`BatchStatistics` (completed, pending, errors, ambiguous,
civil_procedure_blocked, awaiting_selection) plus the counts of the four
unbucketed statuses (searching, citation_mismatch, analysis_only, downloading)
sum to `total_cases`; the bucket sum alone equals `total_cases` only when no
case is in one of those four statuses. -/
theorem bucket_sum_with_unbucketed_statuses (batch_id : String) (status : BatchStatus)
    (progress_percentage : Rat) (cases : List CaseStatus) :
    sixBucketSum (batchStatisticsOf batch_id status progress_percentage cases) +
        statusCount CaseStatus.searching cases +
        statusCount CaseStatus.citation_mismatch cases +
        statusCount CaseStatus.analysis_only cases +
        statusCount CaseStatus.downloading cases =
      (batchStatisticsOf batch_id status progress_percentage cases).total_cases := by
  have h := statusCount_partition cases
  simp only [sixBucketSum, batchStatisticsOf]
  omega

/-- The React state of the `Disambiguation` page that the selection logic
reads: the displayed result set (`results.results`), the
`selectedResult : string | null` state, and `selectMutation.isPending`. -/
structure DisambState where
  results : List SearchResultItem
  selectedResult : Option String
  isPending : Bool

/-- Initial page state: `useState<string | null>(null)` — nothing selected,
no mutation in flight. -/
def initDisambState (rs : List SearchResultItem) : DisambState :=
  { results := rs, selectedResult := Option.none, isPending := false }

/-- `handleSelect` from `pages/Disambiguation.tsx`:
`if (selectedResult) { selectMutation.mutate(selectedResult) }` — the id the
mutation submits, if any.  JavaScript string truthiness makes the empty string
falsy. -/
def handleSelect (st : DisambState) : Option String :=
  match st.selectedResult with
  | Option.none => Option.none
  | Option.some id => if id == "" then Option.none else Option.some id

/-- The `disabled={!selectedResult || selectMutation.isPending}` condition on
the "Select Case" confirm button. -/
def confirmDisabled (st : DisambState) : Bool :=
  !(jsTruthyString st.selectedResult) || st.isPending

/-- UI states of the disambiguation page reachable from the initial state over
a fixed displayed result set `rs`: a `ResultCard` click
(`onClick={() => !disabled && onSelect()}` with
`onSelect={() => setSelectedResult(result.id)}` for a rendered result), and the
confirm button firing `handleSelect`, which marks the mutation pending. -/
inductive DisambReachable (rs : List SearchResultItem) : DisambState → Prop where
  | init : DisambReachable rs (initDisambState rs)
  | select {st : DisambState} (r : SearchResultItem) :
      DisambReachable rs st → r ∈ st.results → st.isPending = false →
      DisambReachable rs { st with selectedResult := Option.some r.id }
  | confirm {st : DisambState} :
      DisambReachable rs st → handleSelect st ≠ Option.none →
      DisambReachable rs { st with isPending := true }

/-- Invariant of reachable disambiguation states: the displayed result set is
the page's result set, and whatever is selected is the id of a displayed
result. -/
theorem disamb_reachable_invariant {rs : List SearchResultItem} {st : DisambState}
    (h : DisambReachable rs st) :
    st.results = rs ∧
      ∀ id, st.selectedResult = Option.some id → id ∈ st.results.map SearchResultItem.id := by
  induction h with
  | init =>
      refine ⟨rfl, ?_⟩
      intro id hid
      simp [initDisambState] at hid
  | select r _ hr _ ih =>
      refine ⟨ih.1, ?_⟩
      intro id hid
      simp only [Option.some.injEq] at hid
      subst hid
      exact List.mem_map_of_mem SearchResultItem.id hr
  | confirm _ _ ih =>
      exact ⟨ih.1, fun id hid => ih.2 id hid⟩

/-- Claim C5: in every reachable state of the disambiguation page, if no
candidate is selected then `handleSelect` performs no mutation and the confirm
button is disabled; and whenever a mutation is submitted, the submitted id is
the id of a result in the currently displayed result set. -/
theorem selection_requires_explicit_choice (rs : List SearchResultItem)
    (st : DisambState) (h : DisambReachable rs st) :
    (st.selectedResult = Option.none →
      handleSelect st = Option.none ∧ confirmDisabled st = true) ∧
    ∀ id, handleSelect st = Option.some id →
      id ∈ st.results.map SearchResultItem.id ∧ st.results = rs := by
  have inv := disamb_reachable_invariant h
  constructor
  · intro hnone
    constructor
    · simp [handleSelect, hnone]
    · simp [confirmDisabled, jsTruthyString, hnone]
  · intro id hid
    refine ⟨?_, inv.1⟩
    cases hsel : st.selectedResult with
    | none => simp [handleSelect, hsel] at hid
    | some sel =>
        simp only [handleSelect, hsel] at hid
        by_cases hblank : sel == ""
        · rw [if_pos hblank] at hid
          cases hid
        · rw [if_neg hblank] at hid
          cases hid
          exact inv.2 _ hsel

/-- Witness for C5 at the initial state over the concrete one-element result
set: nothing selected, so no mutation is issued and the confirm button is
disabled. -/
theorem selection_requires_explicit_choice_witness :
    handleSelect (initDisambState [sampleResult]) = Option.none ∧
    confirmDisabled (initDisambState [sampleResult]) = true :=
  (selection_requires_explicit_choice [sampleResult] (initDisambState [sampleResult])
    DisambReachable.init).1 rfl

/-- A manually entered case: `{ party_name, citation?, notes? }`.  In the form
state the optional fields start as empty strings; the submission code turns
blank or absent values into absent ones. -/
structure ManualCaseEntry where
  party_name : String
  citation : Option String
  notes : Option String
  deriving DecidableEq

/-- JavaScript `String.prototype.trim()`: remove leading and trailing
whitespace, modelled over the character list so it evaluates by kernel
reduction. -/
def jsTrim (s : String) : String :=
  String.mk (((s.data.dropWhile Char.isWhitespace).reverse.dropWhile
    Char.isWhitespace).reverse)

/-- `c.citation?.trim() || undefined` from `handleSubmit` in
`pages/ManualEntry.tsx`: optional chaining keeps `undefined` absent, and the
`|| undefined` turns a trimmed-empty (falsy) string into `undefined`. -/
def trimOrUndefined (s : Option String) : Option String :=
  match s with
  | Option.none => Option.none
  | Option.some t => if jsTrim t == "" then Option.none else Option.some (jsTrim t)

/-- The cleanup `handleSubmit` applies to each submitted case: trim the party
name, and send citation and notes through `trimOrUndefined`. -/
def cleanEntry (c : ManualCaseEntry) : ManualCaseEntry :=
  { party_name := jsTrim c.party_name,
    citation := trimOrUndefined c.citation,
    notes := trimOrUndefined c.notes }

/-- `validateForm` from `pages/ManualEntry.tsx`, as the error list it builds:
one error if the case list is empty, and one per case whose party name is
blank after trimming (`!caseEntry.party_name.trim()`). -/
def validationErrorList (cases : List ManualCaseEntry) : List String :=
  (if cases.length = 0 then ["Please add at least one case"] else []) ++
    cases.enum.filterMap (fun p =>
      if jsTrim p.2.party_name == "" then
        Option.some ("Case #" ++ toString (p.1 + 1) ++ ": Party name is required")
      else Option.none)

/-- `validateForm` returns `errors.length === 0`. -/
def validateForm (cases : List ManualCaseEntry) : Bool :=
  (validationErrorList cases).length == 0

/-- Body of the POST `createManualBatch` issues:
`{ cases: validCases, auto_download_exact_matches: autoDownload }`. -/
structure ManualBatchRequest where
  cases : List ManualCaseEntry
  auto_download_exact_matches : Bool
  deriving DecidableEq

/-- `handleSubmit` from `pages/ManualEntry.tsx`: abort when validation fails,
otherwise submit the cases with non-blank party names, cleaned up. -/
def manualEntrySubmit (cases : List ManualCaseEntry) (autoDownload : Bool) :
    Option ManualBatchRequest :=
  if validateForm cases then
    Option.some
      { cases := (cases.filter (fun c => !(jsTrim c.party_name == ""))).map cleanEntry,
        auto_download_exact_matches := autoDownload }
  else Option.none

/-- The per-case error messages vanish exactly when every listed case has a
non-blank trimmed party name (index-generalized over `enumFrom`). -/
theorem enumFrom_party_errors_eq_nil (n : Nat) (l : List ManualCaseEntry) :
    (List.enumFrom n l).filterMap (fun p =>
        if jsTrim p.2.party_name == "" then
          Option.some ("Case #" ++ toString (p.1 + 1) ++ ": Party name is required")
        else Option.none) = [] ↔
      ∀ c ∈ l, jsTrim c.party_name ≠ "" := by
  induction l generalizing n with
  | nil => simp
  | cons c t ih =>
      simp only [List.enumFrom, List.filterMap_cons]
      by_cases hc : jsTrim c.party_name == ""
      · rw [if_pos hc]
        simp only [List.mem_cons]
        constructor
        · intro h; cases h
        · intro h
          exact absurd (eq_of_beq hc) (h c (Or.inl rfl))
      · rw [if_neg hc]
        rw [ih (n + 1)]
        simp only [List.mem_cons]
        constructor
        · intro h x hx
          rcases hx with hx | hx
          · subst hx; exact fun he => hc (beq_iff_eq.mpr he)
          · exact h x hx
        · intro h x hx
          exact h x (Or.inr hx)

/-- `validateForm` succeeds exactly on a non-empty list whose every case has a
non-blank trimmed party name. -/
theorem validateForm_iff (cases : List ManualCaseEntry) :
    validateForm cases = true ↔
      cases ≠ [] ∧ ∀ c ∈ cases, jsTrim c.party_name ≠ "" := by
  unfold validateForm validationErrorList
  rw [beq_iff_eq, List.length_eq_zero, List.append_eq_nil]
  constructor
  · rintro ⟨h1, h2⟩
    constructor
    · intro hnil
      subst hnil
      simp at h1
    · exact (enumFrom_party_errors_eq_nil 0 cases).mp h2
  · rintro ⟨h1, h2⟩
    constructor
    · rw [if_neg]
      simpa using h1
    · exact (enumFrom_party_errors_eq_nil 0 cases).mpr h2

/-- `trimOrUndefined` never produces the empty string. -/
theorem trimOrUndefined_ne_blank (s : Option String) :
    trimOrUndefined s ≠ Option.some "" := by
  cases s with
  | none => simp [trimOrUndefined]
  | some t =>
      simp only [trimOrUndefined]
      by_cases ht : jsTrim t == ""
      · rw [if_pos ht]; simp
      · rw [if_neg ht]
        intro h
        simp only [Option.some.injEq] at h
        exact ht (beq_iff_eq.mpr h)

/-- `trimOrUndefined` sends blank or absent values to absent ones. -/
theorem trimOrUndefined_of_blank (s : Option String)
    (h : s = Option.none ∨ ∃ t, s = Option.some t ∧ jsTrim t = "") :
    trimOrUndefined s = Option.none := by
  rcases h with h | ⟨t, rfl, ht⟩
  · subst h; rfl
  · simp only [trimOrUndefined]
    rw [if_pos (beq_iff_eq.mpr ht)]

/-- Claim C7: manual-batch validation succeeds iff the case list is non-empty
and every case has a non-blank trimmed party name; on failure nothing is
submitted; on success every case is submitted with its trimmed party name, and
citation/notes are sent as absent — never as an empty string — whenever they
are blank or absent. -/
theorem manual_batch_validation_and_submission (cases : List ManualCaseEntry)
    (autoDownload : Bool) :
    (validateForm cases = true ↔
      cases ≠ [] ∧ ∀ c ∈ cases, jsTrim c.party_name ≠ "") ∧
    (validateForm cases = false →
      manualEntrySubmit cases autoDownload = Option.none) ∧
    (validateForm cases = true →
      manualEntrySubmit cases autoDownload =
        Option.some { cases := cases.map cleanEntry,
                      auto_download_exact_matches := autoDownload } ∧
      ∀ c ∈ cases,
        (cleanEntry c).party_name = jsTrim c.party_name ∧
        (cleanEntry c).citation ≠ Option.some "" ∧
        (cleanEntry c).notes ≠ Option.some "" ∧
        ((c.citation = Option.none ∨ ∃ t, c.citation = Option.some t ∧ jsTrim t = "") →
          (cleanEntry c).citation = Option.none) ∧
        ((c.notes = Option.none ∨ ∃ t, c.notes = Option.some t ∧ jsTrim t = "") →
          (cleanEntry c).notes = Option.none)) := by
  refine ⟨validateForm_iff cases, ?_, ?_⟩
  · intro hfail
    unfold manualEntrySubmit
    rw [hfail]
    rfl
  · intro hok
    constructor
    · unfold manualEntrySubmit
      rw [hok, if_pos rfl]
      have hall := ((validateForm_iff cases).mp hok).2
      have hfilter : cases.filter (fun c => !(jsTrim c.party_name == "")) = cases := by
        rw [List.filter_eq_self]
        intro c hc
        simpa using fun he => hall c hc (eq_of_beq he)
      rw [hfilter]
    · intro c _
      exact ⟨rfl, trimOrUndefined_ne_blank c.citation, trimOrUndefined_ne_blank c.notes,
        trimOrUndefined_of_blank c.citation, trimOrUndefined_of_blank c.notes⟩

/-- A concrete manual entry whose party name needs trimming, whose citation is
whitespace, and whose notes are empty. -/
def sampleEntry : ManualCaseEntry :=
  { party_name := " Smith v Jones ",
    citation := Option.some " ",
    notes := Option.some "" }

/-- Witness for C7: the concrete one-entry list validates, and is submitted
trimmed and cleaned. -/
theorem manual_batch_validation_witness :
    validateForm [sampleEntry] = true ∧
    manualEntrySubmit [sampleEntry] true =
      Option.some { cases := [cleanEntry sampleEntry],
                    auto_download_exact_matches := true } := by
  have h := manual_batch_validation_and_submission [sampleEntry] true
  have hok : validateForm [sampleEntry] = true :=
    h.1.mpr ⟨by decide, by decide⟩
  exact ⟨hok, (h.2.2 hok).1⟩

/-- The blank entry `{ party_name: '', citation: '', notes: '' }` appended by
`CaseEntryForm.addCase`. -/
def blankCaseEntry : ManualCaseEntry :=
  { party_name := "", citation := Option.some "", notes := Option.some "" }

/-- The `maxCases={100}` prop `ManualEntry` passes to `CaseEntryForm` (also the
component's default). -/
def manualEntryMaxCases : Nat := 100

/-- `addCase` from `CaseEntryForm`: return unchanged when the list already
holds `maxCases` entries, otherwise append one blank entry
(`onChange([...cases, { party_name: '', citation: '', notes: '' }])`). -/
def addCase (maxCases : Nat) (cases : List ManualCaseEntry) : List ManualCaseEntry :=
  if cases.length ≥ maxCases then cases else cases ++ [blankCaseEntry]

/-- Claim C9: with the `maxCases` bound (100 as used by `ManualEntry`),
`addCase` leaves a full list unchanged, appends exactly one blank entry to a
shorter list while preserving the existing entries, and never grows the form
past the bound. -/
theorem add_case_bounded (maxCases : Nat) (cases : List ManualCaseEntry) :
    manualEntryMaxCases = 100 ∧
    (cases.length ≥ maxCases → addCase maxCases cases = cases) ∧
    (cases.length < maxCases → addCase maxCases cases = cases ++ [blankCaseEntry]) ∧
    (cases.length ≤ maxCases → (addCase maxCases cases).length ≤ maxCases) := by
  refine ⟨rfl, ?_, ?_, ?_⟩
  · intro h
    simp [addCase, h]
  · intro h
    rw [addCase, if_neg (by omega)]
  · intro h
    unfold addCase
    by_cases hfull : cases.length ≥ maxCases
    · rw [if_pos hfull]; exact h
    · rw [if_neg hfull]
      simp only [List.length_append, List.length_singleton]
      omega

/-- Witness for C9: a full (at bound 0) list is left unchanged, and the empty
list below the `ManualEntry` bound gets exactly the blank entry. -/
theorem add_case_bounded_witness :
    addCase 0 [] = [] ∧ addCase manualEntryMaxCases [] = [blankCaseEntry] :=
  ⟨(add_case_bounded 0 []).2.1 (by decide),
   (add_case_bounded manualEntryMaxCases []).2.2.1 (by decide)⟩

/-- `removeCase` from `CaseEntryForm`, list part:
`cases.filter((_, i) => i !== index)` — keep the entries whose position
differs from the removal index. -/
def removeCaseEntries (index : Nat) (cases : List ManualCaseEntry) :
    List ManualCaseEntry :=
  (cases.enum.filter (fun p => !(p.1 == index))).map Prod.snd

/-- `removeCase` from `CaseEntryForm`, error-map part: the
`Object.entries(errors).forEach` loop keeps an error at a key below the removal
index, shifts an error above it down by one, and drops the error at the index
itself. -/
def removeCaseErrors (index : Nat) : List (Nat × String) → List (Nat × String)
  | [] => []
  | kv :: rest =>
      if kv.1 < index then kv :: removeCaseErrors index rest
      else if index < kv.1 then (kv.1 - 1, kv.2) :: removeCaseErrors index rest
      else removeCaseErrors index rest

/-- JavaScript object lookup `errors[k]` on the entry list of a numeric-keyed
object. -/
def lookupKey (k : Nat) : List (Nat × String) → Option String
  | [] => Option.none
  | kv :: rest => if kv.1 = k then Option.some kv.2 else lookupKey k rest

/-- Indices strictly below the window of an `enumFrom` are filtered away by
nothing: the positional filter keeps everything. -/
theorem enumFrom_filter_ne_of_lt {α : Type} (l : List α) (n k : Nat) (h : k < n) :
    (List.enumFrom n l).filter (fun p => !(p.1 == k)) = List.enumFrom n l := by
  induction l generalizing n with
  | nil => rfl
  | cons x xs ih =>
      simp only [List.enumFrom, List.filter_cons]
      rw [if_pos (by simp; omega)]
      rw [ih (n + 1) (by omega)]

/-- Removing position `n + i` from the enumeration of `l` starting at `n`
keeps the first `i` elements and everything after position `i`. -/
theorem enumFrom_filter_ne_map {α : Type} (l : List α) (n i : Nat) :
    ((List.enumFrom n l).filter (fun p => !(p.1 == n + i))).map Prod.snd =
      l.take i ++ l.drop (i + 1) := by
  induction l generalizing n i with
  | nil => simp
  | cons x xs ih =>
      cases i with
      | zero =>
          simp only [List.enumFrom, List.filter_cons, Nat.add_zero]
          rw [if_neg (by simp)]
          rw [enumFrom_filter_ne_of_lt xs (n + 1) n (by omega)]
          simp [List.enumFrom_map_snd]
      | succ j =>
          simp only [List.enumFrom, List.filter_cons]
          rw [if_pos (by simp)]
          have heq : n + (j + 1) = (n + 1) + j := by omega
          rw [heq, List.map_cons, ih (n + 1) j]
          simp

/-- Claim C10: `removeCase` deletes exactly the entry at the removal index,
preserving the relative order of the rest, and re-indexes the error map
consistently: an error below the index stays put, an error above it moves down
by one, and the error at the index is discarded (no new key reads it). -/
theorem remove_case_reindexes_errors (index : Nat) (cases : List ManualCaseEntry)
    (errors : List (Nat × String)) :
    removeCaseEntries index cases = cases.take index ++ cases.drop (index + 1) ∧
    ∀ k, lookupKey k (removeCaseErrors index errors) =
      if k < index then lookupKey k errors else lookupKey (k + 1) errors := by
  constructor
  · have h := enumFrom_filter_ne_map cases 0 index
    simpa [removeCaseEntries, List.enum] using h
  · intro k
    induction errors with
    | nil => simp [removeCaseErrors, lookupKey]
    | cons kv rest ih =>
        obtain ⟨j, v⟩ := kv
        rcases Nat.lt_trichotomy j index with hj | hj | hj
        · rw [show removeCaseErrors index ((j, v) :: rest) =
                (j, v) :: removeCaseErrors index rest from by
              simp [removeCaseErrors, hj]]
          by_cases hjk : j = k
          · subst hjk
            rw [show lookupKey j ((j, v) :: removeCaseErrors index rest) =
                  Option.some v from by simp [lookupKey]]
            rw [if_pos (by omega)]
            simp [lookupKey]
          · rw [show lookupKey k ((j, v) :: removeCaseErrors index rest) =
                  lookupKey k (removeCaseErrors index rest) from by
                simp [lookupKey, hjk]]
            rw [ih]
            by_cases hk : k < index
            · rw [if_pos hk, if_pos hk]
              simp [lookupKey, hjk]
            · rw [if_neg hk, if_neg hk]
              have : j ≠ k + 1 := by omega
              simp [lookupKey, this]
        · subst hj
          rw [show removeCaseErrors j ((j, v) :: rest) =
                removeCaseErrors j rest from by simp [removeCaseErrors]]
          rw [ih]
          by_cases hk : k < j
          · rw [if_pos hk, if_pos hk]
            have : j ≠ k := by omega
            simp [lookupKey, this]
          · rw [if_neg hk, if_neg hk]
            have : j ≠ k + 1 := by omega
            simp [lookupKey, this]
        · rw [show removeCaseErrors index ((j, v) :: rest) =
                (j - 1, v) :: removeCaseErrors index rest from by
              simp [removeCaseErrors, hj, Nat.not_lt.mpr (Nat.le_of_lt hj)]]
          by_cases hk : k < index
          · rw [if_pos hk]
            have h1 : j - 1 ≠ k := by omega
            have h2 : j ≠ k := by omega
            simp only [lookupKey, if_neg h1, if_neg h2]
            rw [ih, if_pos hk]
          · rw [if_neg hk]
            by_cases hjk : j = k + 1
            · have h1 : j - 1 = k := by omega
              simp only [lookupKey, if_pos h1, if_pos hjk]
            · have h1 : j - 1 ≠ k := by omega
              simp only [lookupKey, if_neg h1, if_neg hjk]
              rw [ih, if_neg hk]

/-- The `type` vocabulary of `WebSocketMessage` in `types/index.ts`. -/
inductive WsMessageKind where
  | case_completed
  | case_error
  | civil_procedure_detected
  | ambiguous_requires_selection
  | batch_complete
  | connected
  deriving DecidableEq

/-- `WebSocketMessage` from `types/index.ts`. -/
structure WebSocketMessage where
  type : WsMessageKind
  case_id : Option String
  batch_id : Option String
  message : Option String
  timestamp : String
  statistics : Option BatchStatistics
  deriving DecidableEq

/-- The `useWebSocket` hook state the claim observes: the `isConnected` and
`lastMessage` React states. -/
structure HookState where
  isConnected : Bool
  lastMessage : Option WebSocketMessage
  deriving DecidableEq

/-- The `ws.onmessage` handler of `hooks/useWebSocket.ts`:
`JSON.parse(event.data)` inside `try { … } catch` — a frame that fails to
parse is absorbed (only logged), a frame that parses becomes `lastMessage` and
is passed to the `onMessage` callback.  `parse` stands for `JSON.parse`
followed by reading the frame as a `WebSocketMessage`; the result is the new
hook state paired with the list of `onMessage` invocations. -/
def handleFrame (parse : String → Option WebSocketMessage) (data : String)
    (st : HookState) : HookState × List WebSocketMessage :=
  match parse data with
  | Option.none => (st, [])
  | Option.some m => ({ st with lastMessage := Option.some m }, [m])

/-- The react-query options the `Dashboard` page passes to `useQuery`. -/
structure QueryOptions where
  queryKey : List (Option String)
  enabled : Bool
  refetchInterval : Option Nat
  deriving DecidableEq

/-- The `batchQuery` options of the dashboard (refetched every 5000 ms). -/
def batchQueryOptions (selectedBatchId : Option String) : QueryOptions :=
  { queryKey := [Option.some "batch", selectedBatchId],
    enabled := jsTruthyString selectedBatchId,
    refetchInterval := Option.some 5000 }

/-- The `statsQuery` options of the dashboard (refetched every 5000 ms). -/
def statsQueryOptions (selectedBatchId : Option String) : QueryOptions :=
  { queryKey := [Option.some "batch-stats", selectedBatchId],
    enabled := jsTruthyString selectedBatchId,
    refetchInterval := Option.some 5000 }

/-- The `casesQuery` options of the dashboard (refetched every 5000 ms). -/
def casesQueryOptions (selectedBatchId : Option String) : QueryOptions :=
  { queryKey := [Option.some "batch-cases", selectedBatchId],
    enabled := jsTruthyString selectedBatchId,
    refetchInterval := Option.some 5000 }

/-- A concrete hook state: connected, no message received yet. -/
def sampleHookState : HookState :=
  { isConnected := true, lastMessage := Option.none }

/-- Claim C8: a frame that does not parse leaves the hook state unchanged and
invokes no callback; a frame that parses makes `lastMessage` exactly that
message (and invokes the callback once with it); and the dashboard's batch,
statistics and case queries each poll on a 5000 ms refetch interval, so missed
at-most-once events are reconciled. -/
theorem malformed_frames_absorbed_and_polling_reconciles
    (parse : String → Option WebSocketMessage) (data : String) (st : HookState) :
    (parse data = Option.none → handleFrame parse data st = (st, [])) ∧
    (∀ m, parse data = Option.some m →
      handleFrame parse data st = ({ st with lastMessage := Option.some m }, [m])) ∧
    ∀ selectedBatchId,
      (batchQueryOptions selectedBatchId).refetchInterval = Option.some 5000 ∧
      (statsQueryOptions selectedBatchId).refetchInterval = Option.some 5000 ∧
      (casesQueryOptions selectedBatchId).refetchInterval = Option.some 5000 := by
  refine ⟨?_, ?_, ?_⟩
  · intro h
    simp [handleFrame, h]
  · intro m h
    simp [handleFrame, h]
  · intro selectedBatchId
    exact ⟨rfl, rfl, rfl⟩

/-- Witness for C8: a concrete unparsable frame leaves a concrete hook state
untouched with no callback invocation, and a concrete parsed frame replaces
`lastMessage`. -/
theorem malformed_frames_absorbed_witness :
    handleFrame (fun _ => Option.none) "not json" sampleHookState =
      (sampleHookState, []) :=
  (malformed_frames_absorbed_and_polling_reconciles (fun _ => Option.none) "not json"
    sampleHookState).1 rfl

end CaseCrawl
